import Mathlib

/-!
Shallow embedding of the Rusty trading repository (src/trading/src) and
verification of the frozen claims about it.

Numeric values carried by tensors and dataframes are modelled as rationals
(the code's float32 values), with an explicit extended-value type `FVal`
where non-finite values (NaN, +inf, -inf) matter.
-/

namespace Trading

/-! ## MarketDataset (src/trading/src/data/market_dataset.py)

A fetched dataframe is a list of rows; each row is the list of the 20
selected numeric columns, in the exact order of the SQL SELECT in
`_fetch_market_data`.
-/

/-- The columns selected by `_fetch_market_data`, in SELECT order.  Column 0
is `open`; column 1 is `close`. -/
def featureColumns : List String :=
  ["open", "close", "high", "low", "volume", "trades",
   "rsi_14", "macd_line", "macd_signal", "macd_histogram",
   "bb_upper", "bb_middle", "bb_lower", "atr_14",
   "volatility_1h", "volatility_24h",
   "price_change_1h", "price_change_24h",
   "volume_change_1h", "volume_change_24h"]

/-- `self.sequence_length = 100` set in `MarketDataset.__init__`. -/
def seqLength : ℕ := 100

/-! ### Min-max scaler (`sklearn.preprocessing.MinMaxScaler`, default
feature range (0,1)), as used by `_preprocess_data`:
`X_scaled = (X - data_min) / handle_zeros(data_max - data_min)` per column,
where a zero column range is replaced by 1. -/

/-- The values of column `j` across all rows (missing entries read as 0;
rows are rectangular in practice). -/
def colVals (data : List (List ℚ)) (j : ℕ) : List ℚ :=
  data.map (fun r => r.getD j 0)

/-- Minimum of a list of rationals (0 for the empty list, which the scaler
never sees). -/
def listMin : List ℚ → ℚ
  | [] => 0
  | x :: xs => xs.foldl min x

/-- Maximum of a list of rationals. -/
def listMax : List ℚ → ℚ
  | [] => 0
  | x :: xs => xs.foldl max x

/-- Per-column minimum fit by `scaler.fit_transform`. -/
def colMin (data : List (List ℚ)) (j : ℕ) : ℚ := listMin (colVals data j)

/-- Per-column maximum fit by `scaler.fit_transform`. -/
def colMax (data : List (List ℚ)) (j : ℕ) : ℚ := listMax (colVals data j)

/-- Scale one entry with the fitted column statistics: `(x - mn) / range`,
where sklearn replaces a zero range by 1 (`_handle_zeros_in_scale`). -/
def scaleEntry (mn mx x : ℚ) : ℚ :=
  (x - mn) / (if mx - mn = 0 then 1 else mx - mn)

/-- Number of feature columns of the dataframe (20 for the real query). -/
def numFeatures (data : List (List ℚ)) : ℕ := (data.headD []).length

/-- The fitted per-column statistics, columns `0..n-1`. -/
def statsList (data : List (List ℚ)) (n : ℕ) : List (ℚ × ℚ) :=
  (List.range n).map (fun j => (colMin data j, colMax data j))

/-- `scaler.fit_transform(data)`: fit min/max over the whole array once,
then transform every entry with those same statistics. -/
def minmaxFitTransform (data : List (List ℚ)) : List (List ℚ) :=
  data.map (fun r =>
    List.zipWith (fun st x => scaleEntry st.1 st.2 x)
      (statsList data (numFeatures data)) r)

/-- `_preprocess_data` after the ffill/bfill repair step: the repaired rows
are scaled in place by the single fitted scaler.  (The repair itself acts on
missing entries only; the claims quantify over the repaired rows.) -/
def preprocessData (rows : List (List ℚ)) : List (List ℚ) :=
  minmaxFitTransform rows

/-- `MarketDataset.__init__` on already-fetched repaired rows: stores the
preprocessed array.  The constructor performs no row-count validation of
its own; the only failure path is inside `_preprocess_data`, where
sklearn's `MinMaxScaler.fit_transform` validates its input
(`ensure_min_samples=1`) and raises `ValueError` on a 0-sample array — so
construction fails on an empty row set (with the scaler's error, not a
window-length configuration error) and succeeds on any non-empty one. -/
def marketDatasetMk (rows : List (List ℚ)) : Option (List (List ℚ)) :=
  match rows with
  | [] => none
  | r :: rest => some (preprocessData (r :: rest))

/-- `MarketDataset.__len__`: `len(self.data) - self.sequence_length`, a
Python int that may be negative. -/
def datasetLen (data : List (List ℚ)) : ℤ :=
  (data.length : ℤ) - (seqLength : ℤ)

/-- The window part of `__getitem__`: `self.data[idx : idx + self.sequence_length]`. -/
def getSequence (data : List (List ℚ)) (idx : ℕ) : List (List ℚ) :=
  (data.drop idx).take seqLength

/-- The target part of `__getitem__`:
`self.data[idx + self.sequence_length, 0]` — entry 0 of the row one past
the window (the code's comment calls it the next close price, but column 0
of the SELECT is `open`). -/
def getTarget (data : List (List ℚ)) (idx : ℕ) : ℚ :=
  (data.getD (idx + seqLength) []).getD 0 0

/-- `MarketDataset.__getitem__ idx` returns the `(sequence, target)` pair. -/
def getItem (data : List (List ℚ)) (idx : ℕ) : List (List ℚ) × ℚ :=
  (getSequence data idx, getTarget data idx)

/-! ## Non-finite value handling (src/trading/src/models/ensemble.py line 51)

`torch.nan_to_num(x, 0.0)` replaces NaN with the given 0.0, but +inf with
the *greatest finite value* of the dtype and -inf with its most negative
finite value (the torch defaults when `posinf`/`neginf` are not given).
Tensors here are float32 (`torch.FloatTensor`). -/

/-- A float32 value: finite (modelled as a rational), NaN, or an infinity. -/
inductive FVal : Type
  | fin (q : ℚ)
  | nan
  | pinf
  | ninf
  deriving DecidableEq, Repr

/-- The greatest finite float32 value, `(2^24 - 1) * 2^104`. -/
def float32Max : ℚ := (2 ^ 24 - 1) * 2 ^ 104

/-- `torch.nan_to_num(·, 0.0)` on one float32 entry. -/
def nanToNum : FVal → FVal
  | .fin q => .fin q
  | .nan => .fin 0
  | .pinf => .fin float32Max
  | .ninf => .fin (-float32Max)

/-- Whether a float32 value is finite. -/
def FVal.isFinite : FVal → Bool
  | .fin _ => true
  | _ => false

/-- The rational carried by `nanToNum v` (always defined: the substitution
always produces a finite value). -/
def toFiniteQ : FVal → ℚ
  | .fin q => q
  | .nan => 0
  | .pinf => float32Max
  | .ninf => -float32Max

/-! ## TimeseriesEnsemble (src/trading/src/models/ensemble.py)

The forward pass on one example, over rationals after the `nan_to_num`
sanitisation.  Linear layers carry explicit weight matrices (one row per
output feature) and bias vectors.  BatchNorm1d is modelled in its
evaluation form as the per-feature affine map with precomputed
scale = gamma / sqrt(var + eps) and shift; Dropout in evaluation mode is
the identity.  The LSTM gate nonlinearities sigmoid and tanh are passed in
as parameters `sg`/`th` (they are transcendental and play no role in the
shape claims). -/

/-- Dot product of two vectors (of equal length in every real call). -/
def dotQ (w x : List ℚ) : ℚ := (List.zipWith (· * ·) w x).sum

/-- `w @ x`: one output per weight-matrix row. -/
def matvec (w : List (List ℚ)) (x : List ℚ) : List ℚ :=
  w.map (fun row => dotQ row x)

/-- Elementwise vector sum. -/
def addV (a b : List ℚ) : List ℚ := List.zipWith (· + ·) a b

/-- Elementwise vector product. -/
def mulV (a b : List ℚ) : List ℚ := List.zipWith (· * ·) a b

/-- Parameters of one `nn.Linear`. -/
structure LinearParams where
  w : List (List ℚ)
  b : List ℚ

/-- `nn.Linear` forward: `W x + b`, one entry per (row, bias) pair. -/
def linearFwd (p : LinearParams) (x : List ℚ) : List ℚ :=
  List.zipWith (fun row bi => dotQ row x + bi) p.w p.b

/-- `nn.LeakyReLU()` with the default negative slope 1/100. -/
def leakyRelu (x : List ℚ) : List ℚ :=
  x.map (fun v => if 0 ≤ v then v else v / 100)

/-- `nn.BatchNorm1d` in evaluation form: per-feature affine map. -/
def batchNorm (scale shift x : List ℚ) : List ℚ :=
  List.zipWith (· + ·) (List.zipWith (· * ·) scale x) shift

/-- Parameters of one LSTM layer (`weight_ih`, `weight_hh`, biases; each
has `4 * hidden` rows holding the i, f, g, o gate blocks). -/
structure LSTMLayerParams where
  wih : List (List ℚ)
  whh : List (List ℚ)
  bih : List ℚ
  bhh : List ℚ

/-- Split the stacked gate pre-activations into the i, f, g, o blocks of
size `hs`. -/
def chunk4 (hs : ℕ) (v : List ℚ) : List ℚ × List ℚ × List ℚ × List ℚ :=
  (v.take hs, ((v.drop hs).take hs),
   ((v.drop (2 * hs)).take hs), ((v.drop (3 * hs)).take hs))

/-- One LSTM cell step (torch gate equations):
`i,f,o = sigmoid(...)`, `g = tanh(...)`, `c' = f*c + i*g`,
`h' = o * tanh c'`. -/
def lstmCell (sg th : ℚ → ℚ) (hs : ℕ) (p : LSTMLayerParams)
    (hc : List ℚ × List ℚ) (x : List ℚ) : List ℚ × List ℚ :=
  let z := addV (addV (matvec p.wih x) p.bih) (addV (matvec p.whh hc.1) p.bhh)
  let gates := chunk4 hs z
  let i := gates.1.map sg
  let f := gates.2.1.map sg
  let g := gates.2.2.1.map th
  let o := gates.2.2.2.map sg
  let c := addV (mulV f hc.2) (mulV i g)
  (mulV o (c.map th), c)

/-- One LSTM layer over a sequence, starting from zero state, returning the
per-step hidden states (most recent last). -/
def lstmLayer (sg th : ℚ → ℚ) (hs : ℕ) (p : LSTMLayerParams)
    (xs : List (List ℚ)) : List (List ℚ) :=
  (xs.foldl
    (fun acc x =>
      let st := lstmCell sg th hs p acc.1 x
      (st, acc.2 ++ [st.1]))
    ((List.replicate hs 0, List.replicate hs 0), [])).2

/-- All parameters built by `TimeseriesEnsemble.__init__`:
a 2-layer LSTM, the misnamed `cnn` feed-forward branch
(Linear → LeakyReLU → BatchNorm, twice) and the `dnn` head
(Linear → LeakyReLU → BatchNorm → Dropout, Linear → LeakyReLU → BatchNorm,
final Linear to 3). -/
structure EnsembleParams where
  hiddenSize : ℕ
  lstm1 : LSTMLayerParams
  lstm2 : LSTMLayerParams
  cnn1 : LinearParams
  cnnScale1 : List ℚ
  cnnShift1 : List ℚ
  cnn2 : LinearParams
  cnnScale2 : List ℚ
  cnnShift2 : List ℚ
  dnn1 : LinearParams
  dnnScale1 : List ℚ
  dnnShift1 : List ℚ
  dnn2 : LinearParams
  dnnScale2 : List ℚ
  dnnShift2 : List ℚ
  dnn3 : LinearParams

/-- The `cnn` branch applied to the most recent row `x[:, -1, :]`. -/
def cnnBranch (p : EnsembleParams) (x : List ℚ) : List ℚ :=
  batchNorm p.cnnScale2 p.cnnShift2
    (leakyRelu (linearFwd p.cnn2
      (batchNorm p.cnnScale1 p.cnnShift1
        (leakyRelu (linearFwd p.cnn1 x)))))

/-- The `dnn` head on the concatenated branch outputs (Dropout in
evaluation mode is the identity). -/
def dnnHead (p : EnsembleParams) (x : List ℚ) : List ℚ :=
  linearFwd p.dnn3
    (batchNorm p.dnnScale2 p.dnnShift2
      (leakyRelu (linearFwd p.dnn2
        (batchNorm p.dnnScale1 p.dnnShift1
          (leakyRelu (linearFwd p.dnn1 x))))))

/-- `forward` after sanitisation, on one example window (a list of rows):
LSTM branch takes the final hidden state, cnn branch takes the last row,
the two are concatenated and fed to the head. -/
def forwardCore (sg th : ℚ → ℚ) (p : EnsembleParams)
    (xs : List (List ℚ)) : List ℚ :=
  let lstmOut := lstmLayer sg th p.hiddenSize p.lstm2
      (lstmLayer sg th p.hiddenSize p.lstm1 xs)
  let lstmLast := lstmOut.getLastD []
  let cnnOut := cnnBranch p (xs.getLastD [])
  dnnHead p (lstmLast ++ cnnOut)

/-- Replace every entry of a row by its `nan_to_num` value. -/
def sanitizeRow (r : List FVal) : List ℚ := r.map toFiniteQ

/-- `forward` on one example window of raw float values: line 51 sanitises
every entry, then both branches run. -/
def forwardWindow (sg th : ℚ → ℚ) (p : EnsembleParams)
    (xs : List (List FVal)) : List ℚ :=
  forwardCore sg th p (xs.map sanitizeRow)

/-- A batched model input: a 2-D tensor of single rows `(batch, 20)`, or a
3-D tensor of windows `(batch, time, 20)`. -/
inductive ModelInput : Type
  | rows2d (batch : List (List FVal))
  | win3d (batch : List (List (List FVal)))

/-- Number of examples in a batched input. -/
def ModelInput.batchSize : ModelInput → ℕ
  | .rows2d b => b.length
  | .win3d b => b.length

/-- `TimeseriesEnsemble.forward`: a 2-D input is unsqueezed to windows of
length 1 (`x.unsqueeze(1)`); every example then flows through
`nan_to_num` and the two branches. -/
def ensembleForward (sg th : ℚ → ℚ) (p : EnsembleParams) :
    ModelInput → List (List ℚ)
  | .rows2d b => b.map (fun r => forwardWindow sg th p [r])
  | .win3d b => b.map (forwardWindow sg th p)

/-! ## DualTimeframeTrainer.train_epoch (src/trading/src/services/trainer.py)

One step of the epoch does the forwards, losses, backward, clipping and
optimizer steps; all of that mutable model/optimizer state is threaded
through an explicit state `S`, and each step reports the two scalar losses
`(loss_15m, loss_1h)` it computed.  The control flow around the steps —
`zip` of the two loaders, accumulation of `0.4 * loss_15m + 0.6 * loss_1h`,
and the final division by `len(dataloader_15m)` — is embedded exactly. -/

/-- `train_epoch(dataloader_15m, dataloader_1h)`: fold the step function
over `zip(loader15, loader1h)`, accumulating the combined loss
`0.4 * loss_15m + 0.6 * loss_1h`, and divide the total by
`len(dataloader_15m)` (the full length of the 15m loader, as in line 69),
not by the number of steps taken. -/
def trainEpoch {S A B : Type} (step : S → A → B → S × ℚ × ℚ) (s0 : S)
    (loader15 : List A) (loader1h : List B) : ℚ :=
  let total := ((loader15.zip loader1h).foldl
    (fun acc ab =>
      let r := step acc.1 ab.1 ab.2
      (r.1, acc.2 + (0.4 * r.2.1 + 0.6 * r.2.2)))
    (s0, (0 : ℚ))).2
  total / (loader15.length : ℚ)

/-- The per-step combined losses `0.4 * loss_15m + 0.6 * loss_1h` along the
zipped loaders, in order (specification-side view of the same fold). -/
def stepLossList {S A B : Type} (step : S → A → B → S × ℚ × ℚ) (s0 : S) :
    List (A × B) → List ℚ
  | [] => []
  | ab :: rest =>
    let r := step s0 ab.1 ab.2
    (0.4 * r.2.1 + 0.6 * r.2.2) :: stepLossList step r.1 rest

/-! ## save_models / load_models (src/trading/src/services/trainer.py)

The filesystem collaborator is a list of existing directories plus a map
from file names to stored checkpoint blobs; `torch.save`/`torch.load` are
modelled as storing and retrieving the state dict itself.  State dicts are
abstract (`α`). -/

/-- A filesystem: the directories that exist, and the files (most recent
write first). -/
structure FileSystem (α : Type) where
  dirs : List String
  files : List (String × α)

/-- `os.path.join(path, name)`. -/
def pathJoin (path name : String) : String := path ++ "/" ++ name

/-- `os.makedirs(path)` guarded by `os.path.exists(path)`. -/
def makeDirs {α : Type} (fs : FileSystem α) (path : String) : FileSystem α :=
  if path ∈ fs.dirs then fs else { fs with dirs := path :: fs.dirs }

/-- `torch.save(blob, name)`. -/
def fsWrite {α : Type} (fs : FileSystem α) (name : String) (v : α) :
    FileSystem α :=
  { fs with files := (name, v) :: fs.files }

/-- `torch.load(name)`: the most recent write to `name`, or a not-found
error. -/
def fsRead {α : Type} (fs : FileSystem α) (name : String) : Option α :=
  (fs.files.find? (fun kv => kv.1 = name)).map (·.2)

/-- `save_models(path, prefix)`: create the directory if absent, then write
the 15m state dict to `{prefix}_15m.pth` and the 1h state dict to
`{prefix}_1h.pth` under `path`. -/
def saveModels {α : Type} (fs : FileSystem α) (path pre : String)
    (sd15 sd1h : α) : FileSystem α :=
  let fs1 := makeDirs fs path
  let fs2 := fsWrite fs1 (pathJoin path (pre ++ "_15m.pth")) sd15
  fsWrite fs2 (pathJoin path (pre ++ "_1h.pth")) sd1h

/-- `load_models(path, prefix)`: read both state dicts back; a missing file
surfaces as `none` (torch raises file-not-found). -/
def loadModels {α : Type} (fs : FileSystem α) (path pre : String) :
    Option (α × α) :=
  match fsRead fs (pathJoin path (pre ++ "_15m.pth")),
        fsRead fs (pathJoin path (pre ++ "_1h.pth")) with
  | some a, some b => some (a, b)
  | _, _ => none

/-! ## predict_with_sample fusion and decision (src/trading/src/predict.py)

Lines 94-104.  Each model's three raw scores are softmaxed; the two
distributions are blended with fixed weights 0.4/0.6; the chained
conditional picks the signal. -/

/-- The three fused probabilities, keyed long/short/hold. -/
structure TriProb where
  long : ℚ
  short : ℚ
  hold : ℚ
  deriving DecidableEq, Repr

/-- Lines 97-101: `combined_probs[k] = 0.4 * prob_15m[k] + 0.6 * prob_1h[k]`
for each of the three keys (index 0 = long, 1 = short, 2 = hold). -/
def combineProbs (p15 p1h : TriProb) : TriProb :=
  ⟨0.4 * p15.long + 0.6 * p1h.long,
   0.4 * p15.short + 0.6 * p1h.short,
   0.4 * p15.hold + 0.6 * p1h.hold⟩

/-- The three possible signals. -/
inductive Signal : Type
  | buy
  | sell
  | holdS
  deriving DecidableEq, Repr

/-- Lines 103-104: `'BUY' if long > 0.6 else 'SELL' if short > 0.6 else
'HOLD'`. -/
def decideSignal (cp : TriProb) : Signal :=
  if cp.long > 0.6 then .buy
  else if cp.short > 0.6 then .sell
  else .holdS

/-- `torch.softmax` over one example's three raw scores (line 94-95),
over the reals. -/
noncomputable def softmax3 (z : Fin 3 → ℝ) (k : Fin 3) : ℝ :=
  Real.exp (z k) / ∑ j : Fin 3, Real.exp (z j)

/-- The fused probability of class `k` computed by lines 94-100 from the
two models' raw scores. -/
noncomputable def fusedFromScores (z15 z1h : Fin 3 → ℝ) (k : Fin 3) : ℝ :=
  0.4 * softmax3 z15 k + 0.6 * softmax3 z1h k

/-- The parameter shapes produced by `TimeseriesEnsemble.__init__(input_size,
hidden_size)`: LSTM gate matrices with `4 * hidden` rows, the `cnn` branch
64-wide, the `dnn` head 128 → 64 → 3. -/
def WellShaped (hs : ℕ) (p : EnsembleParams) : Prop :=
  p.hiddenSize = hs ∧
  p.lstm1.wih.length = 4 * hs ∧ p.lstm1.whh.length = 4 * hs ∧
  p.lstm1.bih.length = 4 * hs ∧ p.lstm1.bhh.length = 4 * hs ∧
  p.lstm2.wih.length = 4 * hs ∧ p.lstm2.whh.length = 4 * hs ∧
  p.lstm2.bih.length = 4 * hs ∧ p.lstm2.bhh.length = 4 * hs ∧
  p.cnn1.w.length = 64 ∧ p.cnn1.b.length = 64 ∧
  p.cnnScale1.length = 64 ∧ p.cnnShift1.length = 64 ∧
  p.cnn2.w.length = 64 ∧ p.cnn2.b.length = 64 ∧
  p.cnnScale2.length = 64 ∧ p.cnnShift2.length = 64 ∧
  p.dnn1.w.length = 128 ∧ p.dnn1.b.length = 128 ∧
  p.dnnScale1.length = 128 ∧ p.dnnShift1.length = 128 ∧
  p.dnn2.w.length = 64 ∧ p.dnn2.b.length = 64 ∧
  p.dnnScale2.length = 64 ∧ p.dnnShift2.length = 64 ∧
  p.dnn3.w.length = 3 ∧ p.dnn3.b.length = 3

/-- A zero-initialised `nn.Linear(i, o)` parameter block (used as a
concrete well-shaped instance). -/
def zeroLinear (o i : ℕ) : LinearParams :=
  ⟨List.replicate o (List.replicate i 0), List.replicate o 0⟩

/-- A zero-initialised LSTM layer with hidden size `hs` over inputs of
width `i`. -/
def zeroLSTM (hs i : ℕ) : LSTMLayerParams :=
  ⟨List.replicate (4 * hs) (List.replicate i 0),
   List.replicate (4 * hs) (List.replicate hs 0),
   List.replicate (4 * hs) 0, List.replicate (4 * hs) 0⟩

/-- A concrete parameter set with exactly the shapes of
`TimeseriesEnsemble(input_size=20, hidden_size=128)`. -/
def zeroEnsembleParams : EnsembleParams where
  hiddenSize := 128
  lstm1 := zeroLSTM 128 20
  lstm2 := zeroLSTM 128 128
  cnn1 := zeroLinear 64 20
  cnnScale1 := List.replicate 64 0
  cnnShift1 := List.replicate 64 0
  cnn2 := zeroLinear 64 64
  cnnScale2 := List.replicate 64 0
  cnnShift2 := List.replicate 64 0
  dnn1 := zeroLinear 128 192
  dnnScale1 := List.replicate 128 0
  dnnShift1 := List.replicate 128 0
  dnn2 := zeroLinear 64 128
  dnnScale2 := List.replicate 64 0
  dnnShift2 := List.replicate 64 0
  dnn3 := zeroLinear 3 64

/-! ## Helper lemmas -/

/-- Scaling is row-wise, so it preserves the number of rows. -/
theorem length_minmaxFitTransform (data : List (List ℚ)) :
    (minmaxFitTransform data).length = data.length :=
  List.length_map _ _

/-- Window element `j` of the window starting at `idx` is row `idx + j` of
the underlying array. -/
theorem getSequence_getElem? (data : List (List ℚ)) (idx j : ℕ)
    (hj : j < seqLength) :
    (getSequence data idx)[j]? = data[idx + j]? := by
  unfold getSequence
  rw [List.getElem?_take, if_pos hj, List.getElem?_drop]

/-! ## Claim theorems -/

/-- C1 (code bug evaluation): on a dataset whose row at index 100 (the row
immediately after window 0) has scaled open component 5 and scaled close
component 7, `__getitem__(0)` pairs window 0 with 5 — the open-price
component, column 0 of the SELECT — and not with the close-price component
the claim (and the code's own comment `# Next close price`) require. -/
theorem getTarget_reads_open_column_not_close :
    featureColumns.indexOf "open" = 0 ∧
    featureColumns.indexOf "close" = 1 ∧
    getTarget (List.replicate 100 (List.replicate 20 0) ++
        [[5, 7] ++ List.replicate 18 0]) 0 =
      ([5, 7] ++ List.replicate 18 (0 : ℚ)).getD
        (featureColumns.indexOf "open") 0 ∧
    getTarget (List.replicate 100 (List.replicate 20 0) ++
        [[5, 7] ++ List.replicate 18 0]) 0 ≠
      ([5, 7] ++ List.replicate 18 (0 : ℚ)).getD
        (featureColumns.indexOf "close") 0 := by
  refine ⟨by decide, by decide, ?_, ?_⟩ <;> decide

/-- C3 (counterexample): with 50 fetched repaired rows (fewer than the 101
the claim requires for a configuration error), `MarketDataset` construction
succeeds — no error of any kind is raised — and the dataset then reports
the negative example count `50 - 100 = -50` through `__len__`. -/
theorem datasetMk_succeeds_on_50_rows_with_negative_len :
    marketDatasetMk (List.replicate 50 (List.replicate 20 0)) =
      some (preprocessData (List.replicate 50 (List.replicate 20 0))) ∧
    datasetLen (preprocessData (List.replicate 50 (List.replicate 20 0)))
      = -50 ∧
    datasetLen (preprocessData (List.replicate 50 (List.replicate 20 0)))
      < 0 := by
  have h : (preprocessData (List.replicate 50 (List.replicate 20 (0 : ℚ)))).length = 50 := by
    unfold preprocessData
    rw [length_minmaxFitTransform, List.length_replicate]
  refine ⟨rfl, ?_, ?_⟩ <;> unfold datasetLen <;> rw [h] <;> decide

/-- C3 (amended): `MarketDataset.__init__` performs no row-count
validation against the window length; for any non-empty repaired row set
with fewer than `sequence_length + 1` rows, construction succeeds and the
dataset exposes a non-positive example count through `__len__`
(`N - 100`), rather than failing with a configuration error.  Only the
empty row set makes construction fail, and then inside the scaler
(`MinMaxScaler.fit_transform` rejects a 0-sample array), before any
windowing. -/
theorem datasetLen_nonpos_of_undersized (rows : List (List ℚ))
    (h0 : rows ≠ []) (hlt : rows.length < seqLength + 1) :
    marketDatasetMk rows = some (preprocessData rows) ∧
    datasetLen (preprocessData rows) ≤ 0 ∧
    marketDatasetMk [] = none := by
  refine ⟨?_, ?_, rfl⟩
  · cases rows with
    | nil => exact absurd rfl h0
    | cons r rest => rfl
  · unfold datasetLen preprocessData
    rw [length_minmaxFitTransform]
    unfold seqLength at *
    omega

/-- C3 (witness): the amended theorem applied to a single-row (non-empty,
undersized) repaired row set. -/
theorem datasetLen_nonpos_of_undersized_witness :
    [List.replicate 20 (0 : ℚ)] ≠ [] ∧
    ([List.replicate 20 (0 : ℚ)]).length < seqLength + 1 ∧
    (marketDatasetMk [List.replicate 20 (0 : ℚ)] =
      some (preprocessData [List.replicate 20 (0 : ℚ)]) ∧
    datasetLen (preprocessData [List.replicate 20 (0 : ℚ)]) ≤ 0 ∧
    marketDatasetMk [] = none) :=
  ⟨by decide, by decide,
    datasetLen_nonpos_of_undersized [List.replicate 20 (0 : ℚ)]
      (by decide) (by decide)⟩

/-- C4 (counterexample): on 50 rows, `__len__` reports `-50`, not the
`max(50 - 100, 0) = 0` examples the claim promises. -/
theorem datasetLen_neq_max_on_50_rows :
    datasetLen (List.replicate 50 (List.replicate 20 (1 : ℚ))) = -50 ∧
    datasetLen (List.replicate 50 (List.replicate 20 (1 : ℚ))) ≠
      max (((List.replicate 50 (List.replicate 20 (1 : ℚ))).length : ℤ)
        - seqLength) 0 := by
  constructor <;> decide

/-- C4 (amended): when the scaled array has at least `L = 100` rows,
`__len__` equals `max(N - L, 0) = N - L` exactly, and window `i` starts at
row `i`: element `j` of window `i` is row `i + j` of the array (windows
are contiguous and ordered).  When `N < L`, `__len__` instead reports the
negative value `N - L`. -/
theorem datasetLen_and_window_start (data : List (List ℚ)) (i j : ℕ)
    (hN : seqLength ≤ data.length) (hj : j < seqLength) :
    datasetLen data = max ((data.length : ℤ) - seqLength) 0 ∧
    (getSequence data i)[j]? = data[i + j]? := by
  constructor
  · unfold datasetLen
    unfold seqLength at hN ⊢
    omega
  · exact getSequence_getElem? data i j hj

/-- C4 (witness): the amended theorem on a 100-row array at window 0,
element 0. -/
theorem datasetLen_and_window_start_witness :
    seqLength ≤ (List.replicate 100 [(0 : ℚ)]).length ∧ 0 < seqLength ∧
    (datasetLen (List.replicate 100 [(0 : ℚ)]) =
      max (((List.replicate 100 [(0 : ℚ)]).length : ℤ) - seqLength) 0 ∧
    (getSequence (List.replicate 100 [(0 : ℚ)]) 0)[0]? =
      (List.replicate 100 [(0 : ℚ)])[0 + 0]?) :=
  ⟨by decide, by decide,
    datasetLen_and_window_start (List.replicate 100 [(0 : ℚ)]) 0 0
      (by decide) (by decide)⟩

/-- The accumulator of the `train_epoch` fold is the running sum of the
per-step combined losses. -/
theorem trainEpoch_total_eq {S A B : Type} (step : S → A → B → S × ℚ × ℚ) :
    ∀ (pairs : List (A × B)) (s : S) (acc : ℚ),
    (pairs.foldl
      (fun acc ab =>
        let r := step acc.1 ab.1 ab.2
        (r.1, acc.2 + (0.4 * r.2.1 + 0.6 * r.2.2)))
      (s, acc)).2
    = acc + (stepLossList step s pairs).sum
  | [], s, acc => by simp [stepLossList]
  | ab :: rest, s, acc => by
    simp only [List.foldl, stepLossList, List.sum_cons]
    rw [trainEpoch_total_eq step rest]
    ring

/-- C2 (counterexample): with a 15m loader of two batches and a 1h loader
of one batch, and a step function whose losses are constantly 1, exactly
one step runs (combined loss 1), so the mean over the steps actually taken
is 1; but `train_epoch` returns 1/2, dividing by `len(dataloader_15m) = 2`. -/
theorem trainEpoch_not_mean_over_steps_taken :
    trainEpoch (fun (_ : Unit) (_ : Unit) (_ : Unit) => ((), (1 : ℚ), (1 : ℚ)))
      () [(), ()] [()] = 1 / 2 ∧
    (stepLossList (fun (_ : Unit) (_ : Unit) (_ : Unit) => ((), (1 : ℚ), (1 : ℚ)))
        () ([(), ()].zip [()])).sum /
      ((([(), ()].zip [()]).length : ℚ)) = 1 ∧
    (1 / 2 : ℚ) ≠ 1 := by
  refine ⟨?_, ?_, by norm_num⟩
  · simp [trainEpoch, List.zip]
    norm_num
  · simp [stepLossList, List.zip]
    norm_num

/-- C2 (amended): `train_epoch` returns the sum of the per-step combined
losses `0.4 * loss_15m + 0.6 * loss_1h` over the `min(len15, len1h)` steps
the zipped iteration takes, divided by `len(dataloader_15m)`; this equals
the mean over the steps actually taken exactly when the 15m loader is no
longer than the 1h loader (in particular for equal lengths), but when the
15m loader is the longer one the divisor remains its full length, not the
step count. -/
theorem trainEpoch_eq_sum_div_loader15 {S A B : Type}
    (step : S → A → B → S × ℚ × ℚ) (s0 : S)
    (loader15 : List A) (loader1h : List B) :
    trainEpoch step s0 loader15 loader1h =
      (stepLossList step s0 (loader15.zip loader1h)).sum /
        (loader15.length : ℚ) ∧
    (loader15.length ≤ loader1h.length →
      trainEpoch step s0 loader15 loader1h =
        (stepLossList step s0 (loader15.zip loader1h)).sum /
          (((loader15.zip loader1h).length : ℚ))) := by
  have hmain : trainEpoch step s0 loader15 loader1h =
      (stepLossList step s0 (loader15.zip loader1h)).sum /
        (loader15.length : ℚ) := by
    unfold trainEpoch
    rw [trainEpoch_total_eq step (loader15.zip loader1h) s0 0]
    rw [zero_add]
  refine ⟨hmain, fun h => ?_⟩
  rw [hmain, List.length_zip, Nat.min_eq_left h]

/-- C2 (witness): the amended theorem on singleton loaders of equal
length. -/
theorem trainEpoch_eq_sum_div_loader15_witness :
    (trainEpoch (fun (_ : Unit) (_ : Unit) (_ : Unit) => ((), (2 : ℚ), (3 : ℚ)))
        () [()] [()] =
      (stepLossList (fun (_ : Unit) (_ : Unit) (_ : Unit) => ((), (2 : ℚ), (3 : ℚ)))
          () ([()].zip [()])).sum / (([()] : List Unit).length : ℚ) ∧
    (([()] : List Unit).length ≤ ([()] : List Unit).length →
      trainEpoch (fun (_ : Unit) (_ : Unit) (_ : Unit) => ((), (2 : ℚ), (3 : ℚ)))
          () [()] [()] =
        (stepLossList (fun (_ : Unit) (_ : Unit) (_ : Unit) => ((), (2 : ℚ), (3 : ℚ)))
            () ([()].zip [()])).sum /
          ((([()].zip ([()] : List Unit)).length : ℚ)))) :=
  trainEpoch_eq_sum_div_loader15
    (fun (_ : Unit) (_ : Unit) (_ : Unit) => ((), (2 : ℚ), (3 : ℚ)))
    () [()] [()]

/-- C5 (counterexample): `torch.nan_to_num(x, 0.0)` does not replace every
non-finite entry with zero — a +inf entry becomes the greatest finite
float32 value (and -inf its negation), not 0; only NaN becomes 0. -/
theorem nanToNum_posinf_not_zero :
    nanToNum FVal.pinf = FVal.fin float32Max ∧
    nanToNum FVal.pinf ≠ FVal.fin 0 ∧
    nanToNum FVal.ninf ≠ FVal.fin 0 := by
  refine ⟨rfl, ?_, ?_⟩ <;> simp [nanToNum, float32Max] <;> norm_num

/-- C5 (amended): before either branch of the forward pass runs, every
entry is passed through `nan_to_num`: NaN is replaced with zero, +inf with
the greatest finite float32 value, -inf with its most negative finite
value, and finite entries are unchanged; the substitute is always finite,
so non-finite values never reach the branches and nothing is raised. -/
theorem nanToNum_neutralizes_before_branches (v : FVal) (sg th : ℚ → ℚ)
    (p : EnsembleParams) (xs : List (List FVal)) :
    nanToNum v = FVal.fin (toFiniteQ v) ∧
    (nanToNum v).isFinite = true ∧
    nanToNum FVal.nan = FVal.fin 0 ∧
    nanToNum FVal.pinf = FVal.fin float32Max ∧
    nanToNum FVal.ninf = FVal.fin (-float32Max) ∧
    (∀ q : ℚ, nanToNum (FVal.fin q) = FVal.fin q) ∧
    forwardWindow sg th p xs = forwardCore sg th p (xs.map sanitizeRow) := by
  refine ⟨?_, ?_, rfl, rfl, rfl, fun q => rfl, rfl⟩ <;> cases v <;> rfl

/-- C6: the fused probabilities are `p[k] = 0.4 * p15m[k] + 0.6 * p1h[k]`
for each of long, short, hold, and the decision is evaluated in order:
BUY iff fused long > 0.6; else SELL iff fused short > 0.6; else HOLD. -/
theorem fusion_formula_and_decision_order (p15 p1h : TriProb) :
    combineProbs p15 p1h =
      ⟨0.4 * p15.long + 0.6 * p1h.long,
       0.4 * p15.short + 0.6 * p1h.short,
       0.4 * p15.hold + 0.6 * p1h.hold⟩ ∧
    (decideSignal (combineProbs p15 p1h) = .buy ↔
      0.4 * p15.long + 0.6 * p1h.long > 0.6) ∧
    (decideSignal (combineProbs p15 p1h) = .sell ↔
      ¬(0.4 * p15.long + 0.6 * p1h.long > 0.6) ∧
        0.4 * p15.short + 0.6 * p1h.short > 0.6) ∧
    (decideSignal (combineProbs p15 p1h) = .holdS ↔
      ¬(0.4 * p15.long + 0.6 * p1h.long > 0.6) ∧
        ¬(0.4 * p15.short + 0.6 * p1h.short > 0.6)) := by
  unfold decideSignal combineProbs
  refine ⟨rfl, ?_, ?_, ?_⟩ <;> dsimp only <;> split_ifs with h1 h2 <;>
    simp_all

/-- C7: for any well-shaped parameter set (as built by
`TimeseriesEnsemble.__init__`), the forward pass yields exactly 3 raw
scores per example, both on a 2-D batch of single rows (each treated as a
window of length 1 by the unsqueeze) and on a 3-D batch of full windows. -/
theorem ensembleForward_output_width_three (sg th : ℚ → ℚ)
    (p : EnsembleParams) (input : ModelInput)
    (h : WellShaped 128 p) :
    (ensembleForward sg th p input).map List.length =
      List.replicate input.batchSize 3 := by
  have h3w : p.dnn3.w.length = 3 := h.2.2.2.2.2.2.2.2.2.2.2.2.2.2.2.2.2.2.2.2.2.2.2.2.2.1
  have h3b : p.dnn3.b.length = 3 := h.2.2.2.2.2.2.2.2.2.2.2.2.2.2.2.2.2.2.2.2.2.2.2.2.2.2
  have key : ∀ xs : List (List FVal), (forwardWindow sg th p xs).length = 3 := by
    intro xs
    unfold forwardWindow forwardCore dnnHead linearFwd
    simp [List.length_zipWith, h3w, h3b]
  cases input with
  | rows2d b =>
    simp only [ensembleForward, ModelInput.batchSize, List.map_map]
    refine List.eq_replicate_iff.mpr ⟨by simp, ?_⟩
    intro n hn
    simp only [List.mem_map, Function.comp] at hn
    obtain ⟨r, _, rfl⟩ := hn
    exact key [r]
  | win3d b =>
    simp only [ensembleForward, ModelInput.batchSize, List.map_map]
    refine List.eq_replicate_iff.mpr ⟨by simp, ?_⟩
    intro n hn
    simp only [List.mem_map, Function.comp] at hn
    obtain ⟨w, _, rfl⟩ := hn
    exact key w

/-- C7 (witness): the theorem at the concrete zero-initialised parameters
of `TimeseriesEnsemble(20, 128)` on a batch holding one single row. -/
theorem ensembleForward_output_width_three_witness :
    WellShaped 128 zeroEnsembleParams ∧
    (ensembleForward id id zeroEnsembleParams
        (.rows2d [List.replicate 20 FVal.nan])).map List.length =
      List.replicate
        (ModelInput.batchSize (.rows2d [List.replicate 20 FVal.nan])) 3 :=
  have hws : WellShaped 128 zeroEnsembleParams := by
    unfold WellShaped zeroEnsembleParams zeroLSTM zeroLinear
    refine ⟨rfl, ?_, ?_, ?_, ?_, ?_, ?_, ?_, ?_, ?_, ?_, ?_, ?_, ?_, ?_,
      ?_, ?_, ?_, ?_, ?_, ?_, ?_, ?_, ?_, ?_, ?_, ?_⟩ <;>
      exact List.length_replicate ..
  ⟨hws, ensembleForward_output_width_three id id zeroEnsembleParams
    (.rows2d [List.replicate 20 FVal.nan]) hws⟩

/-- A left fold of `min` is bounded by its initial value. -/
theorem foldl_min_le_init : ∀ (xs : List ℚ) (a : ℚ), xs.foldl min a ≤ a
  | [], a => le_refl a
  | x :: xs, a =>
    le_trans (foldl_min_le_init xs (min a x)) (min_le_left a x)

/-- A left fold of `min` is bounded by every list element. -/
theorem foldl_min_le_mem :
    ∀ (xs : List ℚ) (a x : ℚ), x ∈ xs → xs.foldl min a ≤ x
  | [], _, _, hx => absurd hx (List.not_mem_nil _)
  | y :: ys, a, x, hx => by
    rcases List.mem_cons.mp hx with rfl | h
    · exact le_trans (foldl_min_le_init ys (min a x)) (min_le_right a x)
    · exact foldl_min_le_mem ys (min a y) x h

/-- `listMin` bounds every element from below. -/
theorem listMin_le_mem (l : List ℚ) (x : ℚ) (hx : x ∈ l) : listMin l ≤ x := by
  cases l with
  | nil => exact absurd hx (List.not_mem_nil x)
  | cons y ys =>
    unfold listMin
    rcases List.mem_cons.mp hx with rfl | h
    · exact foldl_min_le_init ys x
    · exact foldl_min_le_mem ys y x h

/-- A left fold of `max` dominates its initial value. -/
theorem le_foldl_max_init : ∀ (xs : List ℚ) (a : ℚ), a ≤ xs.foldl max a
  | [], a => le_refl a
  | x :: xs, a =>
    le_trans (le_max_left a x) (le_foldl_max_init xs (max a x))

/-- A left fold of `max` dominates every list element. -/
theorem le_foldl_max_mem :
    ∀ (xs : List ℚ) (a x : ℚ), x ∈ xs → x ≤ xs.foldl max a
  | [], _, _, hx => absurd hx (List.not_mem_nil _)
  | y :: ys, a, x, hx => by
    rcases List.mem_cons.mp hx with rfl | h
    · exact le_trans (le_max_right a x) (le_foldl_max_init ys (max a x))
    · exact le_foldl_max_mem ys (max a y) x h

/-- `listMax` bounds every element from above. -/
theorem le_listMax_mem (l : List ℚ) (x : ℚ) (hx : x ∈ l) : x ≤ listMax l := by
  cases l with
  | nil => exact absurd hx (List.not_mem_nil x)
  | cons y ys =>
    unfold listMax
    rcases List.mem_cons.mp hx with rfl | h
    · exact le_foldl_max_init ys x
    · exact le_foldl_max_mem ys y x h

/-- Scaling a value lying between the fitted minimum and maximum lands in
the unit interval (in both the zero-range branch and the generic one). -/
theorem scaleEntry_unit (mn mx x : ℚ) (h1 : mn ≤ x) (h2 : x ≤ mx) :
    0 ≤ scaleEntry mn mx x ∧ scaleEntry mn mx x ≤ 1 := by
  unfold scaleEntry
  split_ifs with h
  · have hx : x = mn := le_antisymm (by linarith) h1
    constructor <;> simp [hx]
  · have hlt : mn < mx :=
      lt_of_le_of_ne (le_trans h1 h2) (fun he => h (by rw [he]; ring))
    constructor
    · exact div_nonneg (by linarith) (by linarith)
    · rw [div_le_one (by linarith)]
      linarith

/-- The fitted minimum scales to 0. -/
theorem scaleEntry_at_min (mn mx : ℚ) : scaleEntry mn mx mn = 0 := by
  unfold scaleEntry
  simp

/-- The fitted maximum scales to 1 when the column is not constant. -/
theorem scaleEntry_at_max (mn mx : ℚ) (h : mn ≠ mx) :
    scaleEntry mn mx mx = 1 := by
  unfold scaleEntry
  rw [if_neg (by intro hc; exact h (by linarith))]
  exact div_self (by intro hc; exact h (by linarith))

/-- The transformed array applies `scaleEntry` with the *global* column
statistics at every position. -/
theorem minmaxFitTransform_entry (data : List (List ℚ)) (i j : ℕ)
    (row : List ℚ) (x : ℚ) (hi : data[i]? = some row) (hj : row[j]? = some x)
    (hn : j < numFeatures data) :
    ((minmaxFitTransform data).getD i [])[j]? =
      some (scaleEntry (colMin data j) (colMax data j) x) := by
  have h1 : (minmaxFitTransform data)[i]? =
      some (List.zipWith (fun st x => scaleEntry st.1 st.2 x)
        (statsList data (numFeatures data)) row) := by
    unfold minmaxFitTransform
    simp [List.getElem?_map, hi]
  have h2 : (minmaxFitTransform data).getD i [] =
      List.zipWith (fun st x => scaleEntry st.1 st.2 x)
        (statsList data (numFeatures data)) row := by
    simp [List.getD, h1]
  have hs : (statsList data (numFeatures data))[j]? =
      some (colMin data j, colMax data j) := by
    unfold statsList
    simp [List.getElem?_map, List.getElem?_range, hn]
  rw [h2, List.getElem?_zipWith', hs, hj]
  rfl

/-- The fitted column minimum is a lower bound on the column's entries. -/
theorem colMin_le_entry (data : List (List ℚ)) (i j : ℕ) (row : List ℚ)
    (x : ℚ) (hi : data[i]? = some row) (hj : row[j]? = some x) :
    colMin data j ≤ x := by
  have hrow : row ∈ data := List.getElem?_mem hi
  have hgd : row.getD j 0 = x := by simp [List.getD, hj]
  have hxmem : x ∈ colVals data j := by
    unfold colVals
    rw [← hgd]
    exact List.mem_map_of_mem _ hrow
  exact listMin_le_mem _ x hxmem

/-- The fitted column maximum is an upper bound on the column's entries. -/
theorem entry_le_colMax (data : List (List ℚ)) (i j : ℕ) (row : List ℚ)
    (x : ℚ) (hi : data[i]? = some row) (hj : row[j]? = some x) :
    x ≤ colMax data j := by
  have hrow : row ∈ data := List.getElem?_mem hi
  have hgd : row.getD j 0 = x := by simp [List.getD, hj]
  have hxmem : x ∈ colVals data j := by
    unfold colVals
    rw [← hgd]
    exact List.mem_map_of_mem _ hrow
  exact le_listMax_mem _ x hxmem

/-- C8: the scaler fit once over the full repaired row set maps each
column's observed minimum to 0 and its maximum to 1 (when they differ),
every transformed entry — computed with those same global statistics at
every position — lies in `[0, 1]`, and every window is a slice of the
once-transformed array, so the same statistics govern every window. -/
theorem scaler_unit_interval_and_window_consistency
    (data : List (List ℚ)) (i j w k : ℕ) (row : List ℚ) (x : ℚ)
    (hi : data[i]? = some row) (hj : row[j]? = some x)
    (hn : j < numFeatures data) (hk : k < seqLength) :
    colMin data j ≤ x ∧ x ≤ colMax data j ∧
    ((minmaxFitTransform data).getD i [])[j]? =
      some (scaleEntry (colMin data j) (colMax data j) x) ∧
    0 ≤ scaleEntry (colMin data j) (colMax data j) x ∧
    scaleEntry (colMin data j) (colMax data j) x ≤ 1 ∧
    scaleEntry (colMin data j) (colMax data j) (colMin data j) = 0 ∧
    (colMin data j ≠ colMax data j →
      scaleEntry (colMin data j) (colMax data j) (colMax data j) = 1) ∧
    (getSequence (minmaxFitTransform data) w)[k]? =
      (minmaxFitTransform data)[w + k]? := by
  have hlo := colMin_le_entry data i j row x hi hj
  have hhi := entry_le_colMax data i j row x hi hj
  obtain ⟨hnn, hle⟩ := scaleEntry_unit (colMin data j) (colMax data j) x hlo hhi
  exact ⟨hlo, hhi, minmaxFitTransform_entry data i j row x hi hj hn,
    hnn, hle, scaleEntry_at_min _ _,
    fun hne => scaleEntry_at_max _ _ hne,
    getSequence_getElem? (minmaxFitTransform data) w k hk⟩

/-- C8 (witness): the theorem on the two-row, one-column array
`[[0], [2]]`, at the entry `x = 2` (the column maximum). -/
theorem scaler_unit_interval_witness :
    colMin [[0], [2]] 0 ≤ 2 ∧ (2 : ℚ) ≤ colMax [[0], [2]] 0 ∧
    ((minmaxFitTransform [[0], [2]]).getD 1 [])[0]? =
      some (scaleEntry (colMin [[0], [2]] 0) (colMax [[0], [2]] 0) 2) ∧
    0 ≤ scaleEntry (colMin [[0], [2]] 0) (colMax [[0], [2]] 0) 2 ∧
    scaleEntry (colMin [[0], [2]] 0) (colMax [[0], [2]] 0) 2 ≤ 1 ∧
    scaleEntry (colMin [[0], [2]] 0) (colMax [[0], [2]] 0)
      (colMin [[0], [2]] 0) = 0 ∧
    (colMin [[0], [2]] 0 ≠ colMax [[0], [2]] 0 →
      scaleEntry (colMin [[0], [2]] 0) (colMax [[0], [2]] 0)
        (colMax [[0], [2]] 0) = 1) ∧
    (getSequence (minmaxFitTransform [[0], [2]]) 0)[0]? =
      (minmaxFitTransform [[0], [2]])[0 + 0]? :=
  scaler_unit_interval_and_window_consistency [[0], [2]] 1 0 0 0 [2] 2
    (by decide) (by decide) (by decide) (by decide)

/-- Appending to the same string on the left is injective. -/
theorem string_append_left_cancel (p a b : String) (h : p ++ a = p ++ b) :
    a = b := by
  obtain ⟨dp⟩ := p
  obtain ⟨da⟩ := a
  obtain ⟨db⟩ := b
  simp only [HAppend.hAppend, Append.append, String.append] at h
  injection h with h2
  exact congrArg String.mk (List.append_cancel_left h2)

/-- The two checkpoint file names written by `save_models` are distinct
for every path and prefix. -/
theorem checkpointNames_distinct (path pre : String) :
    pathJoin path (pre ++ "_15m.pth") ≠ pathJoin path (pre ++ "_1h.pth") := by
  intro h
  unfold pathJoin at h
  have h1 := string_append_left_cancel _ _ _ h
  have h2 := string_append_left_cancel _ _ _ h1
  exact absurd h2 (by decide)

/-- C9: `save_models(path, prefix)` records the target directory (creating
it only when absent) and writes each model's parameters under
`path/{prefix}_15m.pth` and `path/{prefix}_1h.pth`; a subsequent
`load_models(path, prefix)` on the resulting filesystem returns exactly
the saved parameter sets — save followed by load is a round trip. -/
theorem saveModels_loadModels_roundtrip {α : Type} (fs : FileSystem α)
    (path pre : String) (sd15 sd1h : α) :
    path ∈ (saveModels fs path pre sd15 sd1h).dirs ∧
    loadModels (saveModels fs path pre sd15 sd1h) path pre =
      some (sd15, sd1h) := by
  constructor
  · show path ∈ (makeDirs fs path).dirs
    unfold makeDirs
    split_ifs with h
    · exact h
    · exact List.mem_cons_self _ _
  · unfold loadModels saveModels fsWrite fsRead
    have hne := checkpointNames_distinct path pre
    simp [List.find?, hne, Ne.symm hne]

/-- C10: however the two models score an input, softmaxing each model's
three raw scores and fusing with weights 0.4/0.6 yields three
probabilities that are non-negative and sum to 1; hence the fused long and
short probabilities cannot both exceed the 0.6 decision threshold — the
BUY and SELL conditions are mutually exclusive. -/
theorem fused_probs_sum_one_and_thresholds_exclusive (z15 z1h : Fin 3 → ℝ) :
    (∀ k, 0 ≤ fusedFromScores z15 z1h k) ∧
    (∑ k : Fin 3, fusedFromScores z15 z1h k) = 1 ∧
    ¬(fusedFromScores z15 z1h 0 > 0.6 ∧ fusedFromScores z15 z1h 1 > 0.6) := by
  have hpos : ∀ z : Fin 3 → ℝ, (0 : ℝ) < ∑ j : Fin 3, Real.exp (z j) := by
    intro z
    positivity
  have hnonneg : ∀ (z : Fin 3 → ℝ) (k : Fin 3), 0 ≤ softmax3 z k := by
    intro z k
    exact div_nonneg (Real.exp_pos (z k)).le (hpos z).le
  have hsum : ∀ z : Fin 3 → ℝ, (∑ k : Fin 3, softmax3 z k) = 1 := by
    intro z
    unfold softmax3
    rw [← Finset.sum_div]
    exact div_self (ne_of_gt (hpos z))
  have hfnn : ∀ k, 0 ≤ fusedFromScores z15 z1h k := by
    intro k
    unfold fusedFromScores
    have h1 := hnonneg z15 k
    have h2 := hnonneg z1h k
    linarith
  have hfsum : (∑ k : Fin 3, fusedFromScores z15 z1h k) = 1 := by
    unfold fusedFromScores
    rw [Finset.sum_add_distrib, ← Finset.mul_sum, ← Finset.mul_sum,
      hsum z15, hsum z1h]
    norm_num
  refine ⟨hfnn, hfsum, ?_⟩
  rintro ⟨h0, h1⟩
  have h2 := hfnn 2
  have hexp : fusedFromScores z15 z1h 0 + fusedFromScores z15 z1h 1 +
      fusedFromScores z15 z1h 2 = 1 := by
    rw [← hfsum, Fin.sum_univ_three]
  linarith

end Trading
